import Mathlib

/-!
Verification of the event-processing core of the tono-bot gateway
(file tono-bot/src/main.py) against its natural-language specification.

The Python code is shallowly embedded: pure helpers become Lean functions,
the per-conversation mutable state becomes explicit state passing, and the
cooperative (single-threaded asyncio) scheduler is modelled as a step
function over explicit event lists.  Timestamps are modelled as integers
(seconds); Python strings are modelled through their character lists, and
casing and digit tests are modelled for the ASCII range used by the code.
-/

/-! ### String helpers mirroring the Python primitives used by main.py -/

/-- Models the Python substring test t in s (character-sequence infix). -/
def strContains (s t : String) : Bool :=
  s.data.tails.any (fun suf => List.isPrefixOf t.data suf)

/-- Models Python s.endswith(t). -/
def strEndsWith (s t : String) : Bool :=
  List.isSuffixOf t.data s.data

/-- Models Python s.startswith(t). -/
def strStartsWith (s t : String) : Bool :=
  List.isPrefixOf t.data s.data

/-- Models Python s.lower() for the ASCII letters the code compares. -/
def strToLower (s : String) : String :=
  ⟨s.data.map Char.toLower⟩

/-- Models Python s.strip(): whitespace removed from both ends. -/
def strTrim (s : String) : String :=
  ⟨((s.data.dropWhile Char.isWhitespace).reverse.dropWhile Char.isWhitespace).reverse⟩

/-- Models int(s) guarded by s.isdigit(): numeric value when s is a nonempty
all-digit string, otherwise nothing. -/
def parseDigits (s : String) : Option Nat :=
  if s.data ≠ [] ∧ s.data.all Char.isDigit then
    some (s.data.foldl (fun n c => n * 10 + (c.toNat - 48)) 0)
  else none

/-- Models main.py _clean_phone_or_jid: keep only the digit characters. -/
def cleanPhoneOrJid (s : String) : String :=
  ⟨s.data.filter Char.isDigit⟩

/-! ### BoundedOrderedSet (main.py lines 74-92)

The Python class keeps an OrderedDict used as an insertion-ordered set:
add is a no-op for an existing key, and when the set is at capacity the
single oldest key is evicted (popitem last=False) before inserting the new
key.  The set is modelled as the list of keys in insertion order, oldest
first.  (For maxlen = 0 the Python code would raise KeyError on popitem
from an empty dict; every instance in the program has positive capacity,
and the theorems below assume 0 < capacity.) -/

/-- One BoundedOrderedSet.add call on the insertion-ordered key list. -/
def bosAdd {α : Type} [DecidableEq α] (maxlen : Nat) (l : List α) (k : α) : List α :=
  if k ∈ l then l
  else if maxlen ≤ l.length then l.drop 1 ++ [k]
  else l ++ [k]

theorem bosAdd_drop {α : Type} [DecidableEq α] (C : Nat) (hC : 0 < C)
    (seen : List α) (k : α) (hk : k ∉ seen) :
    bosAdd C (seen.drop (seen.length - C)) k = (seen ++ [k]).drop (seen.length + 1 - C) := by
  have hkd : k ∉ seen.drop (seen.length - C) := fun h => hk (List.mem_of_mem_drop h)
  by_cases hlen : C ≤ seen.length
  · have hdl : (seen.drop (seen.length - C)).length = C := by
      rw [List.length_drop]; omega
    rw [bosAdd, if_neg hkd, if_pos (le_of_eq hdl.symm)]
    rw [List.drop_drop]
    rw [List.drop_append_of_le_length (by omega)]
    congr 2
    omega
  · have h0 : seen.length - C = 0 := by omega
    have h1 : seen.length + 1 - C = 0 := by omega
    rw [h0, h1]
    simp only [List.drop_zero]
    rw [bosAdd, if_neg hk, if_neg (by omega)]

theorem bosFold_eq {α : Type} [DecidableEq α] (C : Nat) (hC : 0 < C) :
    ∀ ks : List α, ks.Nodup → ks.foldl (bosAdd C) [] = ks.drop (ks.length - C) := by
  intro ks
  induction ks using List.reverseRecOn with
  | nil => intro _; simp
  | append_singleton ks k ih =>
    intro hnd
    obtain ⟨hks, -, hdisj⟩ := List.nodup_append.mp hnd
    have hk : k ∉ ks := fun hm => hdisj hm (by simp)
    rw [List.foldl_append, List.foldl_cons, List.foldl_nil, ih hks]
    rw [bosAdd_drop C hC ks k hk]
    simp

/-- C3: for a sequence of additions of distinct keys to a BoundedOrderedSet
of capacity C, after N additions the members are exactly the most recently
added min(N, C) keys in insertion order (so for N up to C every key is a
member, and for N above C exactly the last C keys are members); re-adding a
key that is already a member leaves the structure completely unchanged. -/
theorem boundedOrderedSet_eviction {α : Type} [DecidableEq α] (C : Nat) (ks : List α)
    (hC : 0 < C) (hnd : ks.Nodup) :
    (ks.length ≤ C → ks.foldl (bosAdd C) [] = ks) ∧
    (∀ k, k ∈ ks.foldl (bosAdd C) [] ↔ k ∈ ks.drop (ks.length - C)) ∧
    (∀ l : List α, ∀ k ∈ l, bosAdd C l k = l) := by
  refine ⟨?_, ?_, ?_⟩
  · intro h
    rw [bosFold_eq C hC ks hnd]
    have h0 : ks.length - C = 0 := by omega
    simp [h0]
  · intro k
    rw [bosFold_eq C hC ks hnd]
  · intro l k hk
    simp [bosAdd, hk]

/-- C3 witness: capacity 2, keys a then b then c; b and c are the members. -/
theorem boundedOrderedSet_eviction_witness :
    ((0 < 2 ∧ (["a", "b", "c"] : List String).Nodup) ∧
      (("a" ∈ (["a", "b", "c"] : List String).foldl (bosAdd 2) []) ↔ "a" ∈ ["b", "c"])) ∧
    (("c" ∈ (["a", "b", "c"] : List String).foldl (bosAdd 2) []) ↔ "c" ∈ ["b", "c"]) := by
  have h := boundedOrderedSet_eviction (α := String) 2 ["a", "b", "c"] (by decide) (by decide)
  refine ⟨⟨⟨by decide, by decide⟩, ?_⟩, ?_⟩
  · simpa using h.2.1 "a"
  · simpa using h.2.1 "c"

/-! ### ConversationAccumulator (main.py lines 366-384, 531-543, 901-921)

A first inbound text for a conversation opens a pending list and schedules
a task that sleeps MESSAGE_ACCUMULATION_SECONDS and then pops and combines
the pending texts (lines 367-384); every further inbound text appends to
the pending list, cancels the old task if it is not done, and schedules a
fresh one (lines 905-921).  The timed behaviour is modelled by a
simulation over arrivals ordered by time: a pending timer whose due time
has been reached before the next arrival fires first (pop, combine,
record one turn); otherwise the arrival cancels it.  After the last
arrival the surviving timer fires. -/

/-- Combination rule of _process_accumulated_messages: a single message is
passed through unchanged, several are joined with the visible separator. -/
def combineMessages : List String → String
  | [m] => m
  | ms => String.intercalate " | " ms

structure AccSim where
  pending : List String
  timerDue : Option Nat
  turns : List String
deriving DecidableEq

/-- Timer expiry: pop the pending texts and clear the task handle; when the
popped list is nonempty record exactly one combined turn (lines 372-384). -/
def fireTimer (st : AccSim) : AccSim :=
  { pending := [], timerDue := none,
    turns := if st.pending.isEmpty then st.turns else st.turns ++ [combineMessages st.pending] }

/-- One inbound text at time t: a timer already due fired first, otherwise
it is cancelled; the text is appended and a fresh timer is scheduled for
t + D (lines 905-921). -/
def accAppend (D : Nat) (st : AccSim) (t : Nat) (text : String) : AccSim :=
  let st1 := match st.timerDue with
    | some due => if due ≤ t then fireTimer st else st
    | none => st
  { pending := st1.pending ++ [text], timerDue := some (t + D), turns := st1.turns }

/-- Run a whole trace of timed arrivals and let the final timer expire. -/
def runArrivals (D : Nat) (arrivals : List (Nat × String)) : AccSim :=
  let st := arrivals.foldl (fun st a => accAppend D st a.1 a.2) ⟨[], none, []⟩
  match st.timerDue with
  | some _ => fireTimer st
  | none => st

/-- Each arrival comes strictly before the deadline left by its
predecessor, that is, strictly within the debounce window. -/
def burstFrom (D : Nat) : Nat → List (Nat × String) → Prop
  | _, [] => True
  | d, a :: rest => a.1 < d ∧ burstFrom D (a.1 + D) rest

/-- Deadline of the last timer scheduled by a trace of arrivals. -/
def dueAfter (D : Nat) : Nat → List (Nat × String) → Nat
  | d, [] => d
  | _, a :: rest => dueAfter D (a.1 + D) rest

theorem accFold_burst (D : Nat) :
    ∀ (ts : List (Nat × String)) (ps : List String) (d : Nat) (tr : List String),
      burstFrom D d ts →
      ts.foldl (fun st a => accAppend D st a.1 a.2) ⟨ps, some d, tr⟩ =
        ⟨ps ++ ts.map Prod.snd, some (dueAfter D d ts), tr⟩ := by
  intro ts
  induction ts with
  | nil => intro ps d tr _; simp [dueAfter]
  | cons a rest ih =>
    intro ps d tr hb
    obtain ⟨hlt, hrest⟩ := hb
    have hstep : accAppend D ⟨ps, some d, tr⟩ a.1 a.2 = ⟨ps ++ [a.2], some (a.1 + D), tr⟩ := by
      simp [accAppend, Nat.not_le.mpr hlt]
    rw [List.foldl_cons, hstep, ih _ _ _ hrest]
    simp [dueAfter, List.append_assoc]

/-- C1: a burst of inbound texts for one conversation, each arriving
strictly within the debounce window after its predecessor, produces
exactly one combined turn, holding every text in arrival order joined by
the visible separator; the accumulator ends empty with no live timer. -/
theorem burst_single_combined_turn (D t1 : Nat) (s1 : String) (rest : List (Nat × String))
    (hburst : burstFrom D (t1 + D) rest) :
    runArrivals D ((t1, s1) :: rest) =
      ⟨[], none, [combineMessages (s1 :: rest.map Prod.snd)]⟩ := by
  have h0 : accAppend D ⟨[], none, []⟩ (t1, s1).1 (t1, s1).2 = ⟨[s1], some (t1 + D), []⟩ := by
    simp [accAppend]
  have hf := accFold_burst D rest [s1] (t1 + D) [] hburst
  simp only [runArrivals, List.foldl_cons]
  rw [h0, hf]
  simp [fireTimer]

/-- C1 witness: hola then cuanto cuesta one second apart with a four
second window give the single turn hola | cuanto cuesta. -/
theorem burst_single_combined_turn_witness :
    burstFrom 4 (0 + 4) [(1, "cuanto cuesta")] ∧
    runArrivals 4 [(0, "hola"), (1, "cuanto cuesta")] =
      ⟨[], none, ["hola | cuanto cuesta"]⟩ := by
  have hb : burstFrom 4 (0 + 4) [(1, "cuanto cuesta")] := ⟨by norm_num, trivial⟩
  refine ⟨hb, ?_⟩
  have h := burst_single_combined_turn 4 0 "hola" [(1, "cuanto cuesta")] hb
  rw [h]
  rfl

/-! ### Cancellation semantics of the debounce scheduler (C2)

Under the single-threaded asyncio scheduler, cancelling a task whose
sleep is still pending raises CancelledError at the sleep, which
_schedule_accumulated_processing swallows (lines 536-541), so the expiry
body never runs; the pop at the top of _process_accumulated_messages runs
synchronously once the sleep returns, so an append and an expiry are
serialized.  This is modelled with timer generations: every append
installs a fresh generation (superseding, hence cancelling, the previous
one) and an expiry only takes effect when its generation is still the
live one; a cancelled or cleared generation firing is a complete no-op. -/

structure SchedState where
  pending : List String
  live : Option Nat
  nextGen : Nat
  turns : List String
deriving DecidableEq

inductive SchedEvent
  | append (text : String)
  | fire (gen : Nat)

def schedStep (st : SchedState) : SchedEvent → SchedState
  | .append s =>
    { pending := st.pending ++ [s], live := some st.nextGen,
      nextGen := st.nextGen + 1, turns := st.turns }
  | .fire g =>
    if st.live = some g then
      { pending := [], live := none, nextGen := st.nextGen,
        turns := if st.pending.isEmpty then st.turns
                 else st.turns ++ [combineMessages st.pending] }
    else st

def runSched (events : List SchedEvent) : SchedState :=
  events.foldl schedStep ⟨[], none, 0, []⟩

theorem schedStep_appends :
    ∀ (ss : List String) (st : SchedState), ss ≠ [] →
      (ss.map SchedEvent.append).foldl schedStep st =
        ⟨st.pending ++ ss, some (st.nextGen + ss.length - 1), st.nextGen + ss.length, st.turns⟩ := by
  intro ss
  induction ss with
  | nil => intro st h; exact absurd rfl h
  | cons s rest ih =>
    intro st _
    simp only [List.map_cons, List.foldl_cons]
    have hstep : schedStep st (.append s) =
        ⟨st.pending ++ [s], some st.nextGen, st.nextGen + 1, st.turns⟩ := rfl
    by_cases hr : rest = []
    · subst hr
      simp [hstep]
    · rw [hstep, ih _ hr]
      simp only [SchedState.mk.injEq, List.append_assoc, List.singleton_append,
        List.length_cons, Option.some.injEq, true_and, and_true]
      constructor <;> omega

theorem schedStep_stale_fires :
    ∀ (gs : List Nat) (st : SchedState), (∀ g ∈ gs, st.live ≠ some g) →
      (gs.map SchedEvent.fire).foldl schedStep st = st := by
  intro gs
  induction gs with
  | nil => intro st _; rfl
  | cons g rest ih =>
    intro st h
    simp only [List.map_cons, List.foldl_cons]
    rw [show schedStep st (.fire g) = st from by simp [schedStep, h g (by simp)]]
    exact ih st (fun g' hg' => h g' (by simp [hg']))

/-- C2: a fire event whose timer generation is no longer live (it was
cancelled by a later append, or already consumed) leaves the state
completely unchanged, so cancellation never also executes the expiry
action and every fire is all-or-nothing; consequently appending N texts,
which cancels and reschedules N - 1 times, and then letting every
generation fire (the N - 1 stale ones as no-ops and the last one for
real) invokes exactly one turn, holding all N texts, never N turns. -/
theorem cancel_reschedule_single_turn :
    (∀ (st : SchedState) (g : Nat), st.live ≠ some g → schedStep st (.fire g) = st) ∧
    (∀ ss : List String, ss ≠ [] →
      (runSched (ss.map SchedEvent.append ++ (List.range ss.length).map SchedEvent.fire)).turns
        = [combineMessages ss]) := by
  constructor
  · intro st g h
    simp [schedStep, h]
  · intro ss hss
    rw [runSched, List.foldl_append, schedStep_appends ss _ hss]
    simp only [List.nil_append, Nat.zero_add]
    have hpos : 0 < ss.length := List.length_pos.mpr hss
    have hrange : List.range ss.length = List.range (ss.length - 1) ++ [ss.length - 1] := by
      conv_lhs => rw [show ss.length = (ss.length - 1) + 1 from by omega]
      exact List.range_succ _
    rw [hrange, List.map_append, List.foldl_append]
    rw [schedStep_stale_fires (List.range (ss.length - 1))
      ⟨ss, some (ss.length - 1), ss.length, []⟩
      (by
        intro g hg heq
        have hglt := List.mem_range.mp hg
        have hge : ss.length - 1 = g := Option.some.inj heq
        omega)]
    simp only [List.map_cons, List.map_nil, List.foldl_cons, List.foldl_nil]
    rw [show schedStep ⟨ss, some (ss.length - 1), ss.length, []⟩ (.fire (ss.length - 1)) =
        ⟨[], none, ss.length, if ss.isEmpty then [] else [] ++ [combineMessages ss]⟩ from by
      simp [schedStep]]
    cases ss with
    | nil => exact absurd rfl hss
    | cons s rest => simp

/-- C2 witness: a stale fire is a no-op on a concrete state, and three
appends followed by fires of all three generations give one turn. -/
theorem cancel_reschedule_single_turn_witness :
    schedStep ⟨["x"], some 5, 6, []⟩ (.fire 3) = ⟨["x"], some 5, 6, []⟩ ∧
    (runSched ((["a", "b", "c"] : List String).map SchedEvent.append ++
      (List.range (["a", "b", "c"] : List String).length).map SchedEvent.fire)).turns
      = ["a | b | c"] := by
  constructor
  · exact cancel_reschedule_single_turn.1 ⟨["x"], some 5, 6, []⟩ 3 (by simp)
  · have h := cancel_reschedule_single_turn.2 ["a", "b", "c"] (by simp)
    rw [h]
    rfl

/-! ### SilenceRegistry and the turn gate (main.py lines 386-414)

silenced_users maps a conversation to either a numeric expiry timestamp
(a float) or the Python value True (stored by the /silencio command and
meant as permanent silence).  _process_accumulated_messages first checks
this entry.  Because bool is a subclass of int in Python, the test
isinstance(silence_value, (int, float)) at line 389 is also true for the
value True, so a True entry takes the numeric branch where the comparison
time.time() < silence_value reads time.time() < 1: at any realistic clock
this is false, the entry is deleted at line 395 and processing continues.
The elif silence_value is True branch at lines 397-399 is therefore dead
code.  checkSilence models this faithfully: a perm entry gates only while
now < 1.  A numeric entry with now still below it means the turn is
skipped with the entry kept; a numeric entry already reached is deleted
lazily and processing continues.  Only after this check does the function
handle the /silencio and /activar commands and then the normal reply
pipeline. -/

inductive SilenceVal
  | perm
  | timed (expiry : Int)
deriving DecidableEq

/-- Silence check of lines 386-399: returns whether the turn is gated off
together with the (lazily cleaned) entry left in silenced_users.  The
perm entry follows the numeric branch comparing now against 1, because
isinstance(True, (int, float)) holds in Python; the dedicated True branch
of the source is unreachable. -/
def checkSilence (entry : Option SilenceVal) (now : Int) : Bool × Option SilenceVal :=
  match entry with
  | none => (false, none)
  | some (.timed e) => if now < e then (true, some (.timed e)) else (false, none)
  | some .perm => if now < 1 then (true, some .perm) else (false, none)

inductive TurnAction
  | silencedSkip
  | cmdSilence
  | cmdActivate
  | reply
deriving DecidableEq

/-- Gate portion of _process_accumulated_messages (lines 386-414): silence
check first, then the /silencio and /activar commands, then the reply
pipeline; returns the entry left in silenced_users and the action taken. -/
def processTurnGate (entry : Option SilenceVal) (now : Int) (combined : String) :
    Option SilenceVal × TurnAction :=
  let res := checkSilence entry now
  if res.1 then (res.2, .silencedSkip)
  else if strToLower combined = "/silencio" then (some .perm, .cmdSilence)
  else if strToLower combined = "/activar" then (none, .cmdActivate)
  else (res.2, .reply)

/-- C4: for a timed entry the claim holds: a conversation silenced with
expiry T + 60 is gated off at every check strictly inside the window with
the entry kept, and the first check at or after the expiry (for instance
T + 61) finds the conversation active again and lazily removes the entry,
so a non-command turn reaches the reply pipeline.  The claimed invariant,
however, fails for permanent entries: the gate blocks exactly when an
entry exists whose numeric value is still ahead of now, where the
permanent flag True compares as the number 1, so a permanent entry gates
only while now < 1 and at any realistic clock (now at least 1) the next
check deletes it and finds the conversation active, contradicting
silenced iff permanent or now below expiry. -/
theorem silence_expiry_window (T : Int) :
    (∀ (t : Int) (msg : String), T < t → t < T + 60 →
      processTurnGate (some (.timed (T + 60))) t msg =
        (some (.timed (T + 60)), .silencedSkip)) ∧
    (∀ msg : String, strToLower msg ≠ "/silencio" → strToLower msg ≠ "/activar" →
      processTurnGate (some (.timed (T + 60))) (T + 61) msg = (none, .reply)) ∧
    (∀ (entry : Option SilenceVal) (now : Int),
      (checkSilence entry now).1 = true ↔
        ((∃ e, entry = some (.timed e) ∧ now < e) ∨
          (entry = some .perm ∧ now < 1))) ∧
    (∀ now : Int, 1 ≤ now → checkSilence (some .perm) now = (false, none)) := by
  refine ⟨?_, ?_, ?_, ?_⟩
  · intro t msg h1 h2
    simp [processTurnGate, checkSilence, h2]
  · intro msg h1 h2
    have hnot : ¬ (T + 61 < T + 60) := by omega
    simp [processTurnGate, checkSilence, hnot, h1, h2]
  · intro entry now
    match entry with
    | none => simp [checkSilence]
    | some .perm =>
      by_cases h : now < (1 : Int)
      · simp [checkSilence, h]
      · simp [checkSilence, h]
    | some (.timed e) =>
      by_cases h : now < e
      · simp [checkSilence, h]
      · simp [checkSilence, h]
  · intro now h
    have hnot : ¬ (now < (1 : Int)) := by omega
    simp [checkSilence, hnot]

/-- C4 witness: expiry 60; the check at 30 skips the turn keeping the
entry, the check at 61 removes it and lets the turn through, and a
permanent entry checked at clock 100 is deleted without gating. -/
theorem silence_expiry_window_witness :
    ((0 : Int) < 30 ∧ (30 : Int) < 0 + 60 ∧
      strToLower "hola" ≠ "/silencio" ∧ strToLower "hola" ≠ "/activar" ∧
      (1 : Int) ≤ 100) ∧
    processTurnGate (some (.timed (0 + 60))) 30 "hola" =
      (some (.timed (0 + 60)), .silencedSkip) ∧
    processTurnGate (some (.timed (0 + 60))) (0 + 61) "hola" = (none, .reply) ∧
    checkSilence (some .perm) 100 = (false, none) := by
  refine ⟨⟨by norm_num, by norm_num, by decide, by decide, by norm_num⟩, ?_, ?_, ?_⟩
  · exact (silence_expiry_window 0).1 30 "hola" (by norm_num) (by norm_num)
  · exact (silence_expiry_window 0).2.1 "hola" (by decide) (by decide)
  · exact (silence_expiry_window 0).2.2.2 100 (by norm_num)

/-- C5: the code diverges from the claimed unmute transitions in both
directions.  While a timed entry still has its expiry ahead, the gate
returns before the command handler, so an inbound /activar turn is
skipped with the entry intact and the end user cannot unmute early.  A
permanent True entry, routed through the numeric branch because bool is
an int in Python, is lazily deleted on the next processed turn of any
content at any realistic clock, so a permanently silenced conversation
returns to active on any turn, not only on an explicit unmute; when
/activar does arrive for it, the handler is reached only because the
entry has already evaporated at the silence check. -/
theorem activar_unmute_divergence :
    processTurnGate (some (.timed 500)) 100 "/activar" =
      (some (.timed 500), .silencedSkip) ∧
    processTurnGate (some .perm) 100 "hola" = (none, .reply) ∧
    processTurnGate (some .perm) 100 "/activar" = (none, .cmdActivate) := by
  refine ⟨?_, ?_, ?_⟩
  · decide
  · decide
  · decide

/-! ### Bot-vs-human classification (main.py lines 330-355, 855-877)

_is_bot_message checks, in order: a nonempty outbound message id found in
bot_sent_message_ids; the exact text found in that conversation ring
buffer bot_sent_texts; and the elapsed time since last_bot_message_time
(absent entries default to 0) being below HUMAN_DETECTION_WINDOW_SECONDS.
In the from_me branch of process_single_event a message classified as bot
is ignored, an automated greeting is ignored, and anything else silences
the conversation for AUTO_REACTIVATE_MINUTES minutes. -/

def isBotMessage (botSentIds : List String) (textsAtJid : Option (List String))
    (lastBotTime : Option Int) (W now : Int) (msgId msgText : String) : Bool :=
  if msgId ≠ "" ∧ msgId ∈ botSentIds then true
  else if msgText ∈ textsAtJid.getD [] then true
  else decide (now - lastBotTime.getD 0 < W)

/-- Heuristic classifier _is_automated_greeting (main.py lines 297-327). -/
def isAutomatedGreeting (text : String) : Bool :=
  if text = "" then false
  else
    let tl := strToLower text
    (strContains tl "bienvenido" && strContains tl "wa.me") ||
    (strContains tl "catálogo" && strContains tl "wa.me") ||
    (strContains tl "catalogo" && strContains tl "wa.me") ||
    strContains tl "wa.me/c/" ||
    strContains tl "no estamos disponibles" ||
    strContains tl "fuera de horario" ||
    (strContains tl "te contactaremos" && strContains tl "pronto") ||
    (strStartsWith tl "hola" && strContains tl "bienvenido" && decide (text.length < 200))

inductive FromMeOutcome
  | ignoredBot
  | ignoredAutomated
  | humanTakeover
deriving DecidableEq

/-- Outbound-direction branch of process_single_event (lines 855-877):
returns the outcome and the silence entry left for the conversation. -/
def fromMeBranch (botSentIds : List String) (textsAtJid : Option (List String))
    (lastBotTime : Option Int) (W now autoReactivateMinutes : Int)
    (silEntry : Option SilenceVal) (msgId msgText : String) :
    FromMeOutcome × Option SilenceVal :=
  if isBotMessage botSentIds textsAtJid lastBotTime W now msgId msgText then
    (.ignoredBot, silEntry)
  else if isAutomatedGreeting msgText then
    (.ignoredAutomated, silEntry)
  else
    (.humanTakeover, some (.timed (now + autoReactivateMinutes * 60)))

/-- C6: the outbound classification is the priority disjunction of the
three layers (nonempty id in the echo-id cache, exact text in the ring
buffer of that conversation, elapsed time since the last own send below
the recognition window), and a message whose nonempty id is in the
echo-id cache is classified bot-origin, so the from-me branch ignores it
and the silence entry of the conversation is left untouched. -/
theorem bot_classification_three_layers :
    (∀ (ids : List String) (texts : Option (List String)) (last : Option Int)
        (W now : Int) (msgId msgText : String),
      isBotMessage ids texts last W now msgId msgText = true ↔
        ((msgId ≠ "" ∧ msgId ∈ ids) ∨ msgText ∈ texts.getD [] ∨
          now - last.getD 0 < W)) ∧
    (∀ (ids : List String) (texts : Option (List String)) (last : Option Int)
        (W now arm : Int) (sil : Option SilenceVal) (msgId msgText : String),
      msgId ≠ "" → msgId ∈ ids →
      fromMeBranch ids texts last W now arm sil msgId msgText = (.ignoredBot, sil)) := by
  constructor
  · intro ids texts last W now msgId msgText
    unfold isBotMessage
    split_ifs with h1 h2
    · simp [h1]
    · simp [h2]
    · simp [h1, h2, decide_eq_true_iff]
  · intro ids texts last W now arm sil msgId msgText hne hmem
    unfold fromMeBranch
    rw [if_pos]
    unfold isBotMessage
    rw [if_pos ⟨hne, hmem⟩]

/-- C6 witness: an echoed outbound id found in the cache is ignored as a
bot message and the silence entry stays absent. -/
theorem bot_classification_three_layers_witness :
    (("3EB0ABC" : String) ≠ "" ∧ "3EB0ABC" ∈ ["3EB0ABC"]) ∧
    fromMeBranch ["3EB0ABC"] none none 3 1000 60 none "3EB0ABC" "listo" =
      (.ignoredBot, none) :=
  ⟨⟨by decide, by decide⟩,
    bot_classification_three_layers.2 ["3EB0ABC"] none none 3 1000 60 none
      "3EB0ABC" "listo" (by decide) (by decide)⟩

/-! ### Outbound POST with retry (_evo_post, main.py lines 249-261)

The loop makes at most _MAX_RETRIES = 3 calls.  Only a 429 response with
attempts remaining leads to a sleep and a retry; the sleep length is the
retry-after header when it is a nonempty all-digit string, otherwise
2 ^ (attempt + 1).  Any other response, including 5xx and non-429 4xx, is
returned immediately, and an exception raised by the call (for example a
timeout) propagates without any retry.  The provider is modelled as a
function from the attempt index to either an exception (as an error
string) or a response; the result carries the final response, the number
of calls made, and the list of sleeps performed. -/

structure EvoResponse where
  status : Nat
  retryAfter : Option String
deriving DecidableEq

def _MAX_RETRIES : Nat := 3

/-- Backoff before the retry that follows attempt number a. -/
def backoffFor (attempt : Nat) (r : EvoResponse) : Nat :=
  match r.retryAfter with
  | some s =>
    match parseDigits s with
    | some n => n
    | none => 2 ^ (attempt + 1)
  | none => 2 ^ (attempt + 1)

def evoPostLoop (server : Nat → Except String EvoResponse) :
    Nat → Nat → List Nat → Except String (EvoResponse × Nat × List Nat)
  | _, 0, _ => .error "retries loop exhausted"
  | attempt, rem + 1, sleeps =>
    match server attempt with
    | .error e => .error e
    | .ok r =>
      if r.status = 429 ∧ attempt + 1 < _MAX_RETRIES then
        evoPostLoop server (attempt + 1) rem (sleeps ++ [backoffFor attempt r])
      else .ok (r, attempt + 1, sleeps)

def evoPost (server : Nat → Except String EvoResponse) :
    Except String (EvoResponse × Nat × List Nat) :=
  evoPostLoop server 0 _MAX_RETRIES []

/-- C7 counterexample: a provider answering 500 gets no retry at all (one
single call, no backoff), and a timeout exception propagates unretried,
refuting the claim that 5xx responses and timeouts are retried up to 3
attempts with exponential backoff. -/
theorem evo_500_not_retried :
    evoPost (fun _ => .ok ⟨500, none⟩) = .ok (⟨500, none⟩, 1, []) ∧
    evoPost (fun _ => .error "ReadTimeout") = .error "ReadTimeout" :=
  ⟨rfl, rfl⟩

/-- C7 amended: only HTTP 429 responses are ever retried, up to 3 calls in
total; each retry sleeps the provider retry-after value when it is an
all-digit header and 2 ^ (attempt + 1) otherwise; the first non-429
response (including any 5xx and any other 4xx) is returned immediately
with no further call, and an exception from the call propagates with no
retry.  Stated as the complete closed form of the loop. -/
theorem evoPost_retry_behaviour (server : Nat → Except String EvoResponse) :
    evoPost server =
      match server 0 with
      | .error e => .error e
      | .ok r0 =>
        if r0.status = 429 then
          match server 1 with
          | .error e => .error e
          | .ok r1 =>
            if r1.status = 429 then
              match server 2 with
              | .error e => .error e
              | .ok r2 => .ok (r2, 3, [backoffFor 0 r0, backoffFor 1 r1])
            else .ok (r1, 2, [backoffFor 0 r0])
        else .ok (r0, 1, []) := by
  cases h0 : server 0 with
  | error e => simp [evoPost, evoPostLoop, h0]
  | ok r0 =>
    by_cases hs0 : r0.status = 429
    · cases h1 : server 1 with
      | error e =>
        simp [evoPost, evoPostLoop, h0, h1, hs0, _MAX_RETRIES]
      | ok r1 =>
        by_cases hs1 : r1.status = 429
        · cases h2 : server 2 with
          | error e =>
            simp [evoPost, evoPostLoop, h0, h1, h2, hs0, hs1, _MAX_RETRIES]
          | ok r2 =>
            simp [evoPost, evoPostLoop, h0, h1, h2, hs0, hs1, _MAX_RETRIES]
        · simp [evoPost, evoPostLoop, h0, h1, hs0, hs1, _MAX_RETRIES]
    · simp [evoPost, evoPostLoop, h0, hs0, _MAX_RETRIES]

/-! ### Echo recording on outbound sends (main.py lines 645-727, 729-794)

send_evolution_message with no media sends one text call and, on success,
records the provider message id (when present and nonempty) in the global
echo-id cache, appends the literal text to the bot_sent_texts ring of the
conversation (a deque with maxlen 10, oldest entry replaced when full)
and stores the send timestamp in last_bot_message_time.  With media it
makes one sendMedia call per item and, on success, records only the
message ids.  send_evolution_document sends the text and then the PDF and
likewise records only the message ids.  The two per-conversation maps are
modelled as association lists and the Python dict update keeps the
mapping semantics. -/

structure SendResult where
  status : Nat
  msgId : Option String
deriving DecidableEq

structure EchoState where
  botSentIds : List String
  botSentTexts : List (String × List String)
  lastBotMessageTime : List (String × Int)
deriving DecidableEq

def alistGet {β : Type} (m : List (String × β)) (k : String) : Option β :=
  (m.find? (fun p => p.1 == k)).map Prod.snd

def alistSet {β : Type} (m : List (String × β)) (k : String) (v : β) :
    List (String × β) :=
  (k, v) :: m.filter (fun p => p.1 != k)

/-- Append on a deque with the given maxlen: the oldest entry is dropped
once the deque is full. -/
def dequePush (maxlen : Nat) (l : List String) (x : String) : List String :=
  if maxlen ≤ l.length then l.drop 1 ++ [x] else l ++ [x]

/-- Records the provider message id when present and nonempty (the code
guard is if msg_id, so the empty string is not recorded). -/
def recordMsgId (ids : List String) : Option String → List String
  | some m => if m ≠ "" then bosAdd 2000 ids m else ids
  | none => ids

/-- Effect of send_evolution_message on the echo-tracking state.  The
provider argument gives the response to the i-th HTTP call. -/
def sendEvolutionMessage (st : EchoState) (provider : Nat → SendResult)
    (numberOrJid text : String) (mediaUrls : List String) (now : Int) : EchoState :=
  let text := strTrim text
  if text = "" ∧ mediaUrls = [] then st
  else
    let clean := cleanPhoneOrJid numberOrJid
    if clean = "" then st
    else if mediaUrls ≠ [] then
      let newIds := (List.range mediaUrls.length).foldl
        (fun ids i =>
          let r := provider i
          if r.status < 400 then recordMsgId ids r.msgId else ids)
        st.botSentIds
      { st with botSentIds := newIds }
    else
      let r := provider 0
      if r.status < 400 then
        let jid := clean ++ "@s.whatsapp.net"
        { botSentIds := recordMsgId st.botSentIds r.msgId,
          botSentTexts := alistSet st.botSentTexts jid
            (dequePush 10 ((alistGet st.botSentTexts jid).getD []) text),
          lastBotMessageTime := alistSet st.lastBotMessageTime jid now }
      else st

/-- Effect of send_evolution_document on the echo-tracking state: a text
call (when the text is nonempty) and then the document call; only the
message ids are ever recorded. -/
def sendEvolutionDocument (st : EchoState) (provider : Nat → SendResult)
    (numberOrJid text : String) : EchoState :=
  let clean := cleanPhoneOrJid numberOrJid
  if clean = "" then st
  else
    let ids1 := if text ≠ "" then
        (if (provider 0).status < 400 then recordMsgId st.botSentIds (provider 0).msgId
         else st.botSentIds)
      else st.botSentIds
    let nextCall := if text ≠ "" then 1 else 0
    let r := provider nextCall
    { st with botSentIds := if r.status < 400 then recordMsgId ids1 r.msgId else ids1 }

/-- C8 counterexample: a successful media send records the provider
message id but neither the literal text into the ring buffer nor the send
timestamp, refuting the claim that every successful send (text, media or
document) records all three echo-tracking facts. -/
theorem media_send_skips_text_recording :
    sendEvolutionMessage ⟨[], [], []⟩ (fun _ => ⟨201, some "MEDIA1"⟩)
      "5215550001@s.whatsapp.net" "mira esta foto" ["http-url-1"] 1000 =
      ⟨["MEDIA1"], [], []⟩ ∧
    sendEvolutionDocument ⟨[], [], []⟩ (fun _ => ⟨201, some "DOC1"⟩)
      "5215550001@s.whatsapp.net" "aqui va la ficha" =
      ⟨["DOC1"], [], []⟩ := by
  constructor
  · decide
  · decide

theorem alistGet_set {β : Type} (m : List (String × β)) (k : String) (v : β) :
    alistGet (alistSet m k v) k = some v := by
  unfold alistGet alistSet
  rw [List.find?_cons_of_pos _ (by simp)]
  rfl

theorem mem_dequePush (n : Nat) (l : List String) (x : String) : x ∈ dequePush n l x := by
  unfold dequePush
  split <;> simp

theorem mem_bosAdd_self {α : Type} [DecidableEq α] (C : Nat) (l : List α) (k : α) :
    k ∈ bosAdd C l k := by
  unfold bosAdd
  split_ifs with h1 h2
  · exact h1
  · simp
  · simp

/-- C8 amended: only a successful plain-text send records all three
echo-tracking facts (nonempty provider id into the echo-id cache, the
stripped literal text into the maxlen 10 ring of the conversation, the
send timestamp); media sends and document sends leave the ring buffer and
the timestamp map untouched and record only the message ids. -/
theorem send_records_echo_amended :
    (∀ (st : EchoState) (provider : Nat → SendResult) (jid text : String)
        (media : List String) (now : Int), media ≠ [] →
      (sendEvolutionMessage st provider jid text media now).botSentTexts =
        st.botSentTexts ∧
      (sendEvolutionMessage st provider jid text media now).lastBotMessageTime =
        st.lastBotMessageTime) ∧
    (∀ (st : EchoState) (provider : Nat → SendResult) (jid text : String) (now : Int),
      (provider 0).status < 400 → strTrim text ≠ "" → cleanPhoneOrJid jid ≠ "" →
      (strTrim text ∈
        ((alistGet (sendEvolutionMessage st provider jid text [] now).botSentTexts
          (cleanPhoneOrJid jid ++ "@s.whatsapp.net")).getD [])) ∧
      (alistGet (sendEvolutionMessage st provider jid text [] now).lastBotMessageTime
          (cleanPhoneOrJid jid ++ "@s.whatsapp.net") = some now) ∧
      (∀ m, (provider 0).msgId = some m → m ≠ "" →
        m ∈ (sendEvolutionMessage st provider jid text [] now).botSentIds)) ∧
    (∀ (st : EchoState) (provider : Nat → SendResult) (jid text : String),
      (sendEvolutionDocument st provider jid text).botSentTexts = st.botSentTexts ∧
      (sendEvolutionDocument st provider jid text).lastBotMessageTime =
        st.lastBotMessageTime) := by
  refine ⟨?_, ?_, ?_⟩
  · intro st provider jid text media now hmedia
    unfold sendEvolutionMessage
    by_cases h1 : strTrim text = "" ∧ media = []
    · exact absurd h1.2 hmedia
    · rw [if_neg h1]
      by_cases h2 : cleanPhoneOrJid jid = ""
      · rw [if_pos h2]; exact ⟨rfl, rfl⟩
      · rw [if_neg h2, if_pos hmedia]; exact ⟨rfl, rfl⟩
  · intro st provider jid text now hok htext hclean
    have hrw : sendEvolutionMessage st provider jid text [] now =
        { botSentIds := recordMsgId st.botSentIds (provider 0).msgId,
          botSentTexts := alistSet st.botSentTexts
            (cleanPhoneOrJid jid ++ "@s.whatsapp.net")
            (dequePush 10
              ((alistGet st.botSentTexts
                (cleanPhoneOrJid jid ++ "@s.whatsapp.net")).getD [])
              (strTrim text)),
          lastBotMessageTime := alistSet st.lastBotMessageTime
            (cleanPhoneOrJid jid ++ "@s.whatsapp.net") now } := by
      simp only [sendEvolutionMessage]
      rw [if_neg (by simp [htext]), if_neg hclean, if_neg (by simp), if_pos hok]
    rw [hrw]
    refine ⟨?_, ?_, ?_⟩
    · rw [alistGet_set]
      simpa using mem_dequePush 10 _ _
    · exact alistGet_set _ _ _
    · intro m hm hmne
      show m ∈ recordMsgId st.botSentIds (provider 0).msgId
      rw [hm]
      simp only [recordMsgId, if_pos hmne]
      exact mem_bosAdd_self _ _ _
  · intro st provider jid text
    unfold sendEvolutionDocument
    by_cases h : cleanPhoneOrJid jid = ""
    · rw [if_pos h]; exact ⟨rfl, rfl⟩
    · rw [if_neg h]; exact ⟨rfl, rfl⟩

/-- C8 witness: a successful plain-text send on an empty state records the
stripped text in the ring of the conversation and its timestamp. -/
theorem send_records_echo_amended_witness :
    ((((fun _ => (⟨200, some "ID1"⟩ : SendResult)) 0).status < 400 ∧
      strTrim " hola " ≠ "" ∧ cleanPhoneOrJid "123" ≠ "") ∧
      strTrim " hola " ∈
        ((alistGet (sendEvolutionMessage ⟨[], [], []⟩
            (fun _ => ⟨200, some "ID1"⟩) "123" " hola " [] 50).botSentTexts
          (cleanPhoneOrJid "123" ++ "@s.whatsapp.net")).getD [])) ∧
    alistGet (sendEvolutionMessage ⟨[], [], []⟩
        (fun _ => ⟨200, some "ID1"⟩) "123" " hola " [] 50).lastBotMessageTime
      (cleanPhoneOrJid "123" ++ "@s.whatsapp.net") = some 50 := by
  have h := send_records_echo_amended.2.1 ⟨[], [], []⟩
    (fun _ => ⟨200, some "ID1"⟩) "123" " hola " 50 (by decide) (by decide) (by decide)
  exact ⟨⟨⟨by decide, by decide, by decide⟩, h.1⟩, h.2.1⟩

/-! ### Webhook intake (main.py lines 944-983)

evolution_webhook parses the request body; a parse failure is answered
with an ignored status, a parsed body that is not a dict raises inside
the second try block and is answered with error-but-acked, an absent or
falsy data field is answered with ignored-no-data, and otherwise the
events (the data list, or the single data value wrapped in a list) are
handed to a background task while the accepted status is returned at
once.  Every branch returns a plain status object, which FastAPI serves
with HTTP 200.  _background_process_events loops over the events and
catches every per-event exception, so no processing error reaches the
webhook path. -/

inductive Json
  | null
  | bool (b : Bool)
  | num (n : Int)
  | str (s : String)
  | arr (xs : List Json)
  | obj (fields : List (String × Json))

/-- Python truthiness for the modelled JSON values. -/
def jsonTruthy : Json → Bool
  | .null => false
  | .bool b => b
  | .num n => n != 0
  | .str s => s != ""
  | .arr xs => !xs.isEmpty
  | .obj fs => !fs.isEmpty

/-- Normalization of the data payload to a flat event list. -/
def jsonEventList : Json → List Json
  | .arr xs => xs
  | j => [j]

inductive WebhookResp
  | ignoredInvalidJson
  | ignoredNoData
  | accepted
  | errorButAcked
deriving DecidableEq

/-- The webhook endpoint: body is none when JSON parsing failed; the
result is the status object with its HTTP status code, together with the
events dispatched to the background task. -/
def evolutionWebhook (body : Option Json) : (WebhookResp × Nat) × List Json :=
  match body with
  | none => ((.ignoredInvalidJson, 200), [])
  | some (.obj fields) =>
    match (fields.find? (fun p => p.1 == "data")).map Prod.snd with
    | none => ((.ignoredNoData, 200), [])
    | some d =>
      if jsonTruthy d then ((.accepted, 200), jsonEventList d)
      else ((.ignoredNoData, 200), [])
  | some _ => ((.errorButAcked, 200), [])

/-- Background loop of _background_process_events: every event is handed
to the processor and every raised error is caught and kept as a log
entry, never rethrown. -/
def backgroundProcessEvents (handler : Json → Except String Unit)
    (events : List Json) : List (Option String) :=
  events.map (fun e => match handler e with
    | .ok _ => none
    | .error err => some err)

/-- C9: every inbound webhook body, including unparseable JSON, a
non-object body and a body without a data field, is answered with HTTP
status 200 and one of the four acknowledgment statuses, and the
background processor touches every dispatched event exactly once for any
behaviour of the per-event handler, so no per-event failure terminates
the webhook-handling path. -/
theorem webhook_always_acks :
    (∀ body : Option Json, (evolutionWebhook body).1.2 = 200) ∧
    (∀ (handler : Json → Except String Unit) (events : List Json),
      (backgroundProcessEvents handler events).length = events.length) := by
  constructor
  · intro body
    match body with
    | none => rfl
    | some .null => rfl
    | some (.bool b) => rfl
    | some (.num n) => rfl
    | some (.str s) => rfl
    | some (.arr xs) => rfl
    | some (.obj fs) =>
      simp only [evolutionWebhook]
      rcases hfind : (fs.find? (fun p => p.1 == "data")).map Prod.snd with _ | d
      · rw [hfind]
      · rw [hfind]
        by_cases ht : jsonTruthy d
        · simp [ht]
        · simp [ht]
  · intro handler events
    simp [backgroundProcessEvents]

/-! ### Inbound dedup by message id (main.py lines 832-853)

process_single_event discards events with an empty conversation identity
or a group or broadcast identity; then, when the stripped message id is
nonempty, an id already in processed_message_ids means a silent discard
and a fresh id is recorded before processing continues.  An empty id is
neither looked up nor recorded. -/

inductive IntakeOutcome
  | discardedNoJid
  | discardedGroup
  | discardedDuplicate
  | proceed
deriving DecidableEq

/-- Identity and dedup prefix of process_single_event: returns the
outcome and the dedup cache afterwards.  The inputs are the stripped
remote jid and message id. -/
def intakeDedup (cache : List String) (C : Nat) (remoteJid msgId : String) :
    IntakeOutcome × List String :=
  if remoteJid = "" then (.discardedNoJid, cache)
  else if strEndsWith remoteJid "@g.us" || strContains remoteJid "broadcast" then
    (.discardedGroup, cache)
  else if msgId ≠ "" ∧ msgId ∈ cache then (.discardedDuplicate, cache)
  else if msgId ≠ "" then (.proceed, bosAdd C cache msgId)
  else (.proceed, cache)

/-- C10: an event with an empty (absent) message id but a valid direct
conversation identity skips deduplication entirely: it proceeds to
processing and the dedup cache is unchanged, so it is never recorded and
never discarded as a duplicate; since the cache is returned unchanged,
the same id-less event delivered a second time proceeds again and is
processed twice. -/
theorem intake_skips_dedup_for_empty_id (cache : List String) (C : Nat) (jid : String)
    (h1 : jid ≠ "")
    (h2 : (strEndsWith jid "@g.us" || strContains jid "broadcast") = false) :
    intakeDedup cache C jid "" = (.proceed, cache) := by
  unfold intakeDedup
  rw [if_neg h1, if_neg (by simp [h2]), if_neg (by simp), if_neg (by simp)]

/-- C10 witness: a direct conversation jid with an empty message id
proceeds and leaves the cache empty, twice in a row. -/
theorem intake_skips_dedup_for_empty_id_witness :
    (("5215550001@s.whatsapp.net" : String) ≠ "" ∧
      (strEndsWith "5215550001@s.whatsapp.net" "@g.us" ||
        strContains "5215550001@s.whatsapp.net" "broadcast") = false) ∧
    intakeDedup [] 4000 "5215550001@s.whatsapp.net" "" = (.proceed, []) := by
  refine ⟨⟨by decide, by decide⟩, ?_⟩
  exact intake_skips_dedup_for_empty_id [] 4000 "5215550001@s.whatsapp.net"
    (by decide) (by decide)
